import Mathlib

/-!
Verification of the commission-ledger / payout-allocator core of the
A_World_Marketing backend.

The embedding below is a shallow model of the payout code in the admin
controller (the full controller file, referred to here by its source line
numbers): the balance computation and payout creation in createPayout
(lines 860-1050), and the payout resolution in updatePayoutStatus
(lines 787-857).  The persistent store (Prisma/Postgres tables Commission,
Payout, PayoutCommission) is modelled as lists of records; each Prisma
query or write is translated to the corresponding list operation.

Monetary amounts are modelled as fixed-point currency in cents (Int), so
the configured minimum payout threshold of 50 currency units is 5000
cents and a request of 49.99 units is 4999 cents.  The source stores
amounts as SQL decimals and manipulates them as JS numbers; every value
exercised here is an exact two-decimal currency value, for which cents
arithmetic coincides with the source arithmetic.

Row creation order inside a table is significant only through the
explicit orderBy clauses of the source queries, which the model
reproduces with stable insertion sorts; table contents are otherwise
kept in insertion order.
-/

deriving instance DecidableEq for Except

namespace AWorld

/-- Commission.status enum of the Prisma schema
(PENDING, APPROVED, PAID, BLOCKED). -/
inductive CommissionStatus where
  | PENDING
  | APPROVED
  | PAID
  | BLOCKED
deriving DecidableEq, Repr

/-- Payout.status enum of the Prisma schema
(PENDING, APPROVED, PAID, REJECTED). -/
inductive PayoutStatus where
  | PENDING
  | APPROVED
  | PAID
  | REJECTED
deriving DecidableEq, Repr

/-- Commission row: id, owning agent, amount in cents, status, creation
time (abstract tick). The orderId column plays no role in the payout
logic and is omitted. -/
structure Commission where
  id : Nat
  userId : Nat
  amount : Int
  status : CommissionStatus
  createdAt : Nat
deriving DecidableEq, Repr

/-- Payout row: id, owning agent, amount in cents, status, optional
transactionId and timestamps, creation time. -/
structure Payout where
  id : Nat
  userId : Nat
  amount : Int
  status : PayoutStatus
  transactionId : Option String
  approvedAt : Option Nat
  paidAt : Option Nat
  createdAt : Nat
deriving DecidableEq, Repr

/-- PayoutCommission join row (unique on the pair in the schema). -/
structure PayoutCommission where
  payoutId : Nat
  commissionId : Nat
deriving DecidableEq, Repr

/-- The ledger tables, plus the id sequence for payouts and the clock
used for createdAt / approvedAt / paidAt values. -/
structure Store where
  commissions : List Commission
  payouts : List Payout
  links : List PayoutCommission
  nextPayoutId : Nat
  now : Nat
deriving DecidableEq, Repr

/-- Prisma findUnique on Payout by id. -/
def findPayout (s : Store) (pid : Nat) : Option Payout :=
  s.payouts.find? (fun p => p.id == pid)

/-- Prisma findUnique on Commission by id. -/
def findCommission (s : Store) (cid : Nat) : Option Commission :=
  s.commissions.find? (fun c => c.id == cid)

/-- Membership of a commission status in the balance query filter
status in [PENDING, APPROVED, PAID] (createPayout lines 882-887). -/
def CommissionStatus.isEarned : CommissionStatus → Bool
  | .PENDING => true
  | .APPROVED => true
  | .PAID => true
  | .BLOCKED => false

/-- Membership of a commission status in the candidate query filter
status in [APPROVED, PENDING] (createPayout lines 1009-1012). -/
def CommissionStatus.isLinkable : CommissionStatus → Bool
  | .APPROVED => true
  | .PENDING => true
  | _ => false

/-- Payout status APPROVED or PAID. -/
def PayoutStatus.isProcessed : PayoutStatus → Bool
  | .APPROVED => true
  | .PAID => true
  | _ => false

/-- The agent commissions read by the balance computation: userId matches
and status is PENDING, APPROVED or PAID (createPayout lines 882-887). -/
def allCommissionsOf (s : Store) (u : Nat) : List Commission :=
  s.commissions.filter (fun c => c.userId == u && c.status.isEarned)

/-- The payoutCommission rows whose payout belongs to the agent, each
together with that payout (createPayout lines 890-899, the findMany with
include payout). A row whose payoutId resolves to no payout cannot exist
under the schema foreign key and is dropped. -/
def userPayoutLinks (s : Store) (u : Nat) : List (PayoutCommission × Payout) :=
  s.links.filterMap (fun pc =>
    match findPayout s pc.payoutId with
    | some p => if p.userId == u then some (pc, p) else none
    | none => none)

/-- totalCommissionValue of createPayout line 902: sum of the amounts of
the qualifying commissions. -/
def totalCommissionValue (s : Store) (u : Nat) : Int :=
  ((allCommissionsOf s u).map (fun c => c.amount)).sum

/-- usedInProcessedPayouts of createPayout lines 905-910: for every link
row whose payout is APPROVED or PAID, the payout amount is added once
per link row (not once per payout). -/
def usedInProcessedPayouts (s : Store) (u : Nat) : Int :=
  (((userPayoutLinks s u).filter (fun x => x.2.status.isProcessed)).map
    (fun x => x.2.amount)).sum

/-- totalPendingAmount of createPayout lines 913-920: sum of Payout.amount
over the agent payouts with status PENDING. -/
def totalPendingAmount (s : Store) (u : Nat) : Int :=
  ((s.payouts.filter (fun p => p.userId == u && p.status == .PENDING)).map
    (fun p => p.amount)).sum

/-- valueOfCommissionsInPendingPayouts of createPayout lines 923-928: for
every link row whose payout is PENDING, the linked commission amount,
looked up among the qualifying commissions with 0 for a miss. -/
def valueOfCommissionsInPendingPayouts (s : Store) (u : Nat) : Int :=
  (((userPayoutLinks s u).filter (fun x => x.2.status == .PENDING)).map
    (fun x =>
      match (allCommissionsOf s u).find? (fun c => c.id == x.1.commissionId) with
      | some c => c.amount
      | none => 0)).sum

/-- effectivePendingUsage of createPayout line 933. -/
def effectivePendingUsage (s : Store) (u : Nat) : Int :=
  min (valueOfCommissionsInPendingPayouts s u) (totalPendingAmount s u)

/-- totalAvailableCommission of createPayout lines 880-939, translated as
one inline pipeline in the order the source computes it: read the
qualifying commissions, read the agent link rows with their payouts, sum
the commission amounts, fold the payout amount over the processed link
rows, aggregate the pending payout amounts, fold the looked-up commission
amount over the pending link rows, cap, and clamp at zero. -/
def computeAvailableBalance (s : Store) (u : Nat) : Int :=
  let allCommissions := s.commissions.filter (fun c => c.userId == u && c.status.isEarned)
  let allPayoutCommissions := s.links.filterMap (fun pc =>
    match findPayout s pc.payoutId with
    | some p => if p.userId == u then some (pc, p) else none
    | none => none)
  let totalValue := (allCommissions.map (fun c => c.amount)).sum
  let usedProcessed := ((allPayoutCommissions.filter (fun x => x.2.status.isProcessed)).map
    (fun x => x.2.amount)).sum
  let pendingTotal := ((s.payouts.filter (fun p => p.userId == u && p.status == .PENDING)).map
    (fun p => p.amount)).sum
  let pendingValue := ((allPayoutCommissions.filter (fun x => x.2.status == .PENDING)).map
    (fun x =>
      match allCommissions.find? (fun c => c.id == x.1.commissionId) with
      | some c => c.amount
      | none => 0)).sum
  let effectivePending := min pendingValue pendingTotal
  max 0 (totalValue - (usedProcessed + effectivePending))

/-- Whether some payoutCommission row links this commission to a payout
with status APPROVED or PAID (the none-filter of createPayout
lines 1013-1020). -/
def commissionLinkedToProcessed (s : Store) (cid : Nat) : Bool :=
  s.links.any (fun pc => pc.commissionId == cid &&
    (match findPayout s pc.payoutId with
     | some p => p.status.isProcessed
     | none => false))

/-- The candidate query of createPayout lines 1009-1023 before its
orderBy: agent commissions with status APPROVED or PENDING having no
link to an APPROVED or PAID payout. Commissions linked only to PENDING
payouts pass this filter. -/
def availableCommissionsFor (s : Store) (u : Nat) : List Commission :=
  s.commissions.filter (fun c => c.userId == u && c.status.isLinkable &&
    !(commissionLinkedToProcessed s c.id))

/-- Stable insertion step for the orderBy amount asc of createPayout
line 1022. -/
def insertByAmount (c : Commission) : List Commission → List Commission
  | [] => [c]
  | d :: ds => if c.amount ≤ d.amount then c :: d :: ds else d :: insertByAmount c ds

/-- Stable sort realising orderBy amount asc (createPayout line 1022). -/
def sortByAmountAsc : List Commission → List Commission
  | [] => []
  | c :: cs => insertByAmount c (sortByAmountAsc cs)

/-- The greedy linking loop of createPayout lines 1027-1043: walk the
ordered candidates, stop once the remaining amount is nonpositive,
otherwise create a link row and subtract min(commission.amount,
remainingAmount). -/
def greedyLinks (pid : Nat) : List Commission → Int → List PayoutCommission
  | [], _ => []
  | c :: cs, remaining =>
    if remaining ≤ 0 then []
    else { payoutId := pid, commissionId := c.id } ::
      greedyLinks pid cs (remaining - min c.amount remaining)

/-- Business-rule failures of the allocator, one per distinct early
return of the source handlers. InvalidAmount is the response
"Valid amount is required" of createPayout lines 869-872,
BelowMinimumThreshold the minimum-threshold response of lines 875-878,
InsufficientBalance the response of lines 941-944, NotFound the 404 of
updatePayoutStatus lines 810-813, InvalidStatus the
"Invalid payout status" response of lines 793-796. -/
inductive PayoutError where
  | InvalidAmount
  | BelowMinimumThreshold
  | InsufficientBalance
  | NotFound
  | InvalidStatus
deriving DecidableEq, Repr

/-- Hardcoded minimum payout threshold of createPayout line 866
(50 currency units), in cents. -/
def minimumPayoutThreshold : Int := 5000

/-- createPayout (lines 860-1050): validate the amount, enforce the
minimum threshold, check the requested amount against the computed
available balance, then insert a PENDING payout row and greedily link
candidate commissions ordered by amount ascending. The re-computation of
balance figures at lines 955-1006 is read-only and its results are never
used by the linking loop, so it has no effect on the store and is not
modelled. Every error path of the source returns before any write. -/
def createPayout (s : Store) (u : Nat) (amount : Int) :
    Except PayoutError (Payout × Store) :=
  if amount ≤ 0 then .error .InvalidAmount
  else if amount < minimumPayoutThreshold then .error .BelowMinimumThreshold
  else if computeAvailableBalance s u < amount then .error .InsufficientBalance
  else
    let payout : Payout :=
      { id := s.nextPayoutId, userId := u, amount := amount, status := .PENDING,
        transactionId := none, approvedAt := none, paidAt := none,
        createdAt := s.now }
    let s1 : Store :=
      { s with payouts := s.payouts ++ [payout],
               nextPayoutId := s.nextPayoutId + 1, now := s.now + 1 }
    let candidates := sortByAmountAsc (availableCommissionsFor s1 u)
    .ok (payout, { s1 with links := s1.links ++ greedyLinks payout.id candidates amount })

/-- The payout row inserted by createPayout lines 947-953. -/
def newPayoutRow (s : Store) (u : Nat) (amount : Int) : Payout :=
  { id := s.nextPayoutId, userId := u, amount := amount, status := .PENDING,
    transactionId := none, approvedAt := none, paidAt := none,
    createdAt := s.now }

/-- The store right after the payout insert of createPayout, before any
link row is written. -/
def withNewPayout (s : Store) (u : Nat) (amount : Int) : Store :=
  { s with payouts := s.payouts ++ [newPayoutRow s u amount],
           nextPayoutId := s.nextPayoutId + 1, now := s.now + 1 }

/-- The link rows a successful createPayout writes, expressed over the
pre-request state: the greedy walk over the amount-ordered candidates
(the candidate query runs after the payout insert, but a PENDING payout
changes no candidate). -/
def requestLinks (s : Store) (u : Nat) (amount : Int) : List PayoutCommission :=
  greedyLinks s.nextPayoutId (sortByAmountAsc (availableCommissionsFor s u)) amount

/-- The store a successful createPayout leaves behind: the new PENDING
payout row and its link rows appended. -/
def afterRequest (s : Store) (u : Nat) (amount : Int) : Store :=
  { s with payouts := s.payouts ++ [newPayoutRow s u amount],
           links := s.links ++ requestLinks s u amount,
           nextPayoutId := s.nextPayoutId + 1, now := s.now + 1 }

/-- The updateData record of updatePayoutStatus lines 816-824 applied to
the stored payout: status always written, transactionId written only when
supplied truthy, paidAt stamped on a transition into PAID, approvedAt on
a transition into APPROVED. -/
def applyStatusUpdate (p : Payout) (st : PayoutStatus) (transactionId : Option String)
    (now : Nat) : Payout :=
  { p with
    status := st,
    transactionId :=
      match transactionId with
      | some t => if t == "" then p.transactionId else some t
      | none => p.transactionId,
    paidAt := if st == .PAID then some now else p.paidAt,
    approvedAt := if st == .APPROVED then some now else p.approvedAt }

/-- updatePayoutStatus (lines 787-857) after the status string has been
validated: look the payout up (404 when absent), write the update record,
then reconcile commissions: a new status of APPROVED or PAID marks every
linked commission PAID; a new status of REJECTED reverts the linked
commissions to APPROVED when the previous payout status was APPROVED or
PAID, and in either case deletes the link rows of this payout. No guard
restricts which previous status may move to which new status. -/
def updatePayoutStatus (s : Store) (pid : Nat) (st : PayoutStatus)
    (transactionId : Option String) : Except PayoutError (Payout × Store) :=
  match findPayout s pid with
  | none => .error .NotFound
  | some existing =>
    let updated := applyStatusUpdate existing st transactionId s.now
    let s1 : Store :=
      { s with payouts := s.payouts.map (fun p => if p.id == pid then updated else p),
               now := s.now + 1 }
    let linkedIds := (s.links.filter (fun pc => pc.payoutId == pid)).map
      (fun pc => pc.commissionId)
    let s2 : Store :=
      if st == .APPROVED || st == .PAID then
        { s1 with commissions := (s1.commissions.map
            (fun c => if linkedIds.contains c.id then { c with status := .PAID } else c)) }
      else if st == .REJECTED then
        let s1b : Store :=
          if existing.status == .APPROVED || existing.status == .PAID then
            { s1 with commissions := (s1.commissions.map
                (fun c => if linkedIds.contains c.id then { c with status := .APPROVED } else c)) }
          else s1
        { s1b with links := s1b.links.filter (fun pc => pc.payoutId != pid) }
      else s1
    .ok (updated, s2)

/-- The status-string validation of updatePayoutStatus lines 793-796:
only the four enum spellings are accepted. -/
def payoutStatusOfString (str : String) : Option PayoutStatus :=
  if str == "PENDING" then some .PENDING
  else if str == "APPROVED" then some .APPROVED
  else if str == "PAID" then some .PAID
  else if str == "REJECTED" then some .REJECTED
  else none

/-- updatePayoutStatus on the raw request body: reject a status string
outside the enumeration, otherwise run the typed update. -/
def updatePayoutStatusStr (s : Store) (pid : Nat) (statusStr : String)
    (transactionId : Option String) : Except PayoutError (Payout × Store) :=
  match payoutStatusOfString statusStr with
  | none => .error .InvalidStatus
  | some st => updatePayoutStatus s pid st transactionId

/-- An API call against the allocator: an agent payout request or an
admin payout resolution. -/
inductive Op where
  | request (u : Nat) (amount : Int)
  | resolve (pid : Nat) (st : PayoutStatus) (transactionId : Option String)

/-- Execute one call; a business-rule failure writes nothing and leaves
the store as it was (each error path of the source returns before its
first write). -/
def applyOp (s : Store) : Op → Store
  | .request u a =>
    match createPayout s u a with
    | .ok pr => pr.2
    | .error _ => s
  | .resolve pid st tid =>
    match updatePayoutStatus s pid st tid with
    | .ok pr => pr.2
    | .error _ => s

/-- Execute a sequence of calls. -/
def runOps (s : Store) (ops : List Op) : Store :=
  ops.foldl applyOp s

/-- Store states visible after each successive write of a successful
createPayout. The source issues the payout insert and every link insert
as separate awaited prisma calls with no surrounding transaction
(lines 946-1043), so an infrastructure failure after the k-th write
leaves exactly the first k writes visible to subsequent reads. k = 0 is
the state before any write, k = 1 the state right after the payout
insert, and each further step adds one link row. -/
def createPayoutPartial (s : Store) (u : Nat) (amount : Int) (k : Nat) :
    Option Store :=
  if amount ≤ 0 then none
  else if amount < minimumPayoutThreshold then none
  else if computeAvailableBalance s u < amount then none
  else
    let payout : Payout :=
      { id := s.nextPayoutId, userId := u, amount := amount, status := .PENDING,
        transactionId := none, approvedAt := none, paidAt := none,
        createdAt := s.now }
    let s1 : Store :=
      { s with payouts := s.payouts ++ [payout],
               nextPayoutId := s.nextPayoutId + 1, now := s.now + 1 }
    let candidates := sortByAmountAsc (availableCommissionsFor s1 u)
    if k = 0 then some s
    else some { s1 with links := s1.links ++ (greedyLinks payout.id candidates amount).take (k - 1) }

/-- Claim-side balance component, modelled from the spec wording: sum of
Payout.amount counted once per payout over the agent payouts with status
APPROVED or PAID. The source instead folds over the payoutCommission
rows and adds the payout amount once per row. -/
def usedByProcessedPerPayout (s : Store) (u : Nat) : Int :=
  ((s.payouts.filter (fun p => p.userId == u && p.status.isProcessed)).map
    (fun p => p.amount)).sum

/-- Claim-side balance formula, modelled from the spec wording, with
usedByProcessed counted once per payout. -/
def computeAvailableBalanceClaim (s : Store) (u : Nat) : Int :=
  max 0 (totalCommissionValue s u -
    (usedByProcessedPerPayout s u +
      min (valueOfCommissionsInPendingPayouts s u) (totalPendingAmount s u)))

/-- Claim-side candidate order, modelled from the spec wording: ascending
creation time, ties broken by commission id (stable insertion step). -/
def insertByCreatedAt (c : Commission) : List Commission → List Commission
  | [] => [c]
  | d :: ds =>
    if c.createdAt < d.createdAt || (c.createdAt == d.createdAt && c.id < d.id) then
      c :: d :: ds
    else d :: insertByCreatedAt c ds

/-- Claim-side sort, modelled from the spec wording: oldest first, ties
by id. -/
def sortByCreatedAtAsc : List Commission → List Commission
  | [] => []
  | c :: cs => insertByCreatedAt c (sortByCreatedAtAsc cs)

/-- Claim-side allocation, modelled from the spec wording: the same
greedy walk but over the creation-time order. -/
def fifoLinksClaim (s : Store) (u : Nat) (pid : Nat) (amount : Int) :
    List PayoutCommission :=
  greedyLinks pid (sortByCreatedAtAsc (availableCommissionsFor s u)) amount

/-- Whether pid names a payout of agent u whose status is not REJECTED. -/
def isActivePayoutOf (s : Store) (u : Nat) (pid : Nat) : Bool :=
  match findPayout s pid with
  | some p => p.userId == u && p.status != .REJECTED
  | none => false

/-- Sum, over every PayoutCommission row whose payout belongs to the
agent and is not REJECTED, of the linked commission amount. A commission
linked to two such payouts is counted once per row. -/
def linkedValuePerRow (s : Store) (u : Nat) : Int :=
  (s.links.filterMap (fun pc =>
    if isActivePayoutOf s u pc.payoutId then
      some (match findCommission s pc.commissionId with
        | some c => c.amount
        | none => 0)
    else none)).sum

/-- Whether the commission has at least one link to a non-REJECTED payout
of agent u. -/
def hasActiveLink (s : Store) (u : Nat) (cid : Nat) : Bool :=
  s.links.any (fun pc => pc.commissionId == cid && isActivePayoutOf s u pc.payoutId)

/-- Sum of the amounts of the agent commissions that are linked to at
least one non-REJECTED payout of the agent, each commission counted
once. -/
def linkedValueDistinct (s : Store) (u : Nat) : Int :=
  ((s.commissions.filter (fun c => c.userId == u && hasActiveLink s u c.id)).map
    (fun c => c.amount)).sum

/-- Total earned commission amount of the agent: the sum of all the agent
commission amounts. -/
def totalEarnedAllStatuses (s : Store) (u : Nat) : Int :=
  ((s.commissions.filter (fun c => c.userId == u)).map (fun c => c.amount)).sum

/-- FIFO scenario start state of the spec: agent 7 with three APPROVED
commissions of 20, 30 and 40 currency units (2000, 3000, 4000 cents)
created in that order; no payouts, no links. -/
def fifoStore : Store :=
  { commissions :=
      [ { id := 1, userId := 7, amount := 2000, status := .APPROVED, createdAt := 0 },
        { id := 2, userId := 7, amount := 3000, status := .APPROVED, createdAt := 1 },
        { id := 3, userId := 7, amount := 4000, status := .APPROVED, createdAt := 2 } ],
    payouts := [], links := [], nextPayoutId := 1, now := 10 }

/-- FIFO scenario after requestPayout(agent 7, 50 units). The request of
45 units named by the spec scenario is below the 50-unit minimum
threshold of this code and is refused before any write, so the scenario
is driven here with the smallest request the code accepts. -/
def fifoRequested : Store := applyOp fifoStore (.request 7 5000)

/-- FIFO scenario after the payout is resolved to APPROVED. -/
def fifoApproved : Store := applyOp fifoRequested (.resolve 1 .APPROVED none)

/-- FIFO scenario after the approved payout is then resolved to
REJECTED. -/
def fifoRejected : Store := applyOp fifoApproved (.resolve 1 .REJECTED none)

/-- Ledger state observed when the store fails right after the payout
insert of createPayout(agent 7, 50 units) on the FIFO scenario state:
one write happened, none of the link inserts did. -/
def fifoMid : Store := (createPayoutPartial fifoStore 7 5000 1).getD fifoStore

/-- Two APPROVED commissions of 100 units each for agent 7; no payouts,
no links. -/
def twoCommStore : Store :=
  { commissions :=
      [ { id := 1, userId := 7, amount := 10000, status := .APPROVED, createdAt := 0 },
        { id := 2, userId := 7, amount := 10000, status := .APPROVED, createdAt := 1 } ],
    payouts := [], links := [], nextPayoutId := 1, now := 10 }

/-- Two consecutive payout requests of 150 and 50 units by agent 7. -/
def twoCommOps : List Op := [.request 7 15000, .request 7 5000]

/-- State after the two requests. -/
def twoCommEnd : Store := runOps twoCommStore twoCommOps

/-- Agent 7 with commissions of 30, 30 and 100 units (all APPROVED) and
one APPROVED payout of 60 units linked to the two 30-unit commissions;
reachable by requesting 60 units and approving the payout. -/
def c3Store : Store :=
  { commissions :=
      [ { id := 1, userId := 7, amount := 3000, status := .PAID, createdAt := 0 },
        { id := 2, userId := 7, amount := 3000, status := .PAID, createdAt := 1 },
        { id := 3, userId := 7, amount := 10000, status := .APPROVED, createdAt := 2 } ],
    payouts :=
      [ { id := 1, userId := 7, amount := 6000, status := .APPROVED,
          transactionId := none, approvedAt := some 11, paidAt := none, createdAt := 10 } ],
    links := [ { payoutId := 1, commissionId := 1 }, { payoutId := 1, commissionId := 2 } ],
    nextPayoutId := 2, now := 12 }

/-- Agent 7 with an APPROVED commission of 50 units created before an
APPROVED commission of 30 units; no payouts, no links. -/
def c5Store : Store :=
  { commissions :=
      [ { id := 1, userId := 7, amount := 5000, status := .APPROVED, createdAt := 0 },
        { id := 2, userId := 7, amount := 3000, status := .APPROVED, createdAt := 1 } ],
    payouts := [], links := [], nextPayoutId := 1, now := 10 }

/-- A payout of agent 7 that has already reached PAID. -/
def c6Store : Store :=
  { commissions := [],
    payouts :=
      [ { id := 1, userId := 7, amount := 6000, status := .PAID,
          transactionId := none, approvedAt := some 4, paidAt := some 5, createdAt := 3 } ],
    links := [], nextPayoutId := 2, now := 10 }

/-- The payout carried by a successful handler result. -/
def payoutResult (r : Except PayoutError (Payout × Store)) : Option Payout :=
  match r with
  | .ok pr => some pr.1
  | .error _ => none

/-- The store carried by a successful handler result. -/
def storeResult (r : Except PayoutError (Payout × Store)) : Option Store :=
  match r with
  | .ok pr => some pr.2
  | .error _ => none

/-- Agent 7 with a commission already consumed by an APPROVED payout and
a second free commission; used to exercise the candidate exclusion. -/
def consumedStore : Store :=
  { commissions :=
      [ { id := 1, userId := 7, amount := 10000, status := .PAID, createdAt := 0 },
        { id := 2, userId := 7, amount := 6000, status := .APPROVED, createdAt := 1 } ],
    payouts :=
      [ { id := 1, userId := 7, amount := 9000, status := .APPROVED,
          transactionId := none, approvedAt := some 11, paidAt := none, createdAt := 10 } ],
    links := [ { payoutId := 1, commissionId := 1 } ],
    nextPayoutId := 2, now := 12 }

/-- The PAID payout row of c6Store. -/
def c6Payout : Payout :=
  { id := 1, userId := 7, amount := 6000, status := .PAID,
    transactionId := none, approvedAt := some 4, paidAt := some 5, createdAt := 3 }

/-- The APPROVED payout row of c3Store. -/
def c3Payout : Payout :=
  { id := 1, userId := 7, amount := 6000, status := .APPROVED,
    transactionId := none, approvedAt := some 11, paidAt := none, createdAt := 10 }

/-- Result pair of createPayout(agent 7, 50 units) on consumedStore. -/
def consumedRequestResult : Payout × Store :=
  (createPayout consumedStore 7 5000).toOption.getD (c6Payout, consumedStore)

/-- Result pair of createPayout(agent 7, 50 units) on c5Store. -/
def c5RequestResult : Payout × Store :=
  (createPayout c5Store 7 5000).toOption.getD (c6Payout, c5Store)

/-- Result pair of resolving the approved payout of c3Store to
REJECTED. -/
def c3RejectResult : Payout × Store :=
  (updatePayoutStatus c3Store 1 .REJECTED none).toOption.getD (c3Payout, c3Store)

/-- Result pair of resolving the paid payout of c6Store to APPROVED. -/
def c6ApproveResult : Payout × Store :=
  (updatePayoutStatus c6Store 1 .APPROVED none).toOption.getD (c6Payout, c6Store)

/-- Result pair of createPayout(agent 7, 50 units) on the FIFO scenario
state. -/
def fifoRequestResult : Payout × Store :=
  (createPayout fifoStore 7 5000).toOption.getD (c6Payout, fifoStore)

/-- Agent 7 with a single APPROVED commission of 100 units; no payouts,
no links. -/
def oneCommStore : Store :=
  { commissions :=
      [ { id := 1, userId := 7, amount := 10000, status := .APPROVED, createdAt := 0 } ],
    payouts := [], links := [], nextPayoutId := 1, now := 10 }

/-- The single-commission state after a 50-unit request has been made
and the resulting payout APPROVED: the commission is PAID and linked to
an APPROVED payout, yet the balance still reads 50 units. -/
def oneCommConsumed : Store :=
  runOps oneCommStore [Op.request 7 5000, Op.resolve 1 .APPROVED none]

/-- Result pair of a second 50-unit request on that state: it succeeds
(the balance check passes) while the candidate query is empty, so no
link row is written. -/
def oneCommSecondResult : Payout × Store :=
  (createPayout oneCommConsumed 7 5000).toOption.getD (c6Payout, oneCommConsumed)

/-- Claim C1, counterexample: from a link-free state holding two APPROVED
commissions of 100 units each (total earned 20000 cents), the accepted
request sequence of 150 units then 50 units leaves link rows whose
per-row linked commission value is 30000 cents, exceeding the total
earned amount: the second request re-links a commission already linked
to the first, still PENDING, payout. -/
theorem conservation_per_row_violated :
    twoCommStore.links = [] ∧
    twoCommEnd = runOps twoCommStore twoCommOps ∧
    linkedValuePerRow twoCommEnd 7 = 30000 ∧
    totalEarnedAllStatuses twoCommEnd 7 = 20000 ∧
    totalEarnedAllStatuses twoCommEnd 7 < linkedValuePerRow twoCommEnd 7 := by
  decide

/-- Claim C2, counterexample: in the same reachable state, commission 1
is linked to both payout 1 (150 units) and payout 2 (50 units), neither
REJECTED, and the combined withdrawal of 200 units exceeds the
commission amount of 100 units. -/
theorem double_allocation_possible :
    twoCommStore.links = [] ∧
    twoCommEnd = runOps twoCommStore twoCommOps ∧
    { payoutId := 1, commissionId := 1 } ∈ twoCommEnd.links ∧
    { payoutId := 2, commissionId := 1 } ∈ twoCommEnd.links ∧
    (findPayout twoCommEnd 1).map (fun p => (p.amount, p.status)) =
      some (15000, .PENDING) ∧
    (findPayout twoCommEnd 2).map (fun p => (p.amount, p.status)) =
      some (5000, .PENDING) ∧
    (findCommission twoCommEnd 1).map (fun c => c.amount) = some 10000 ∧
    (10000 : Int) < 15000 + 5000 := by
  decide

/-- Claim C3, counterexample: for an agent with commissions of 30, 30 and
100 units and one APPROVED payout of 60 units linked to the two 30-unit
commissions, the code computes 40 units of available balance (the payout
amount is subtracted once per link row) while the claimed formula, with
usedByProcessed counted once per payout, gives 100 units. -/
theorem availableBalance_not_per_payout :
    computeAvailableBalance c3Store 7 = 4000 ∧
    computeAvailableBalanceClaim c3Store 7 = 10000 ∧
    computeAvailableBalance c3Store 7 ≠ computeAvailableBalanceClaim c3Store 7 := by
  decide

/-- Claim C4: createPayout issues its writes as separate store calls with
no transaction, so a failure right after the payout insert leaves a
PENDING payout with no link rows, a state equal neither to the
pre-operation state nor to the completed one, visible to subsequent
reads. The k = 0 and k = 3 points tie the partial-write model to the
unfailed operation. -/
theorem createPayout_partial_write_observable :
    createPayoutPartial fifoStore 7 5000 0 = some fifoStore ∧
    createPayoutPartial fifoStore 7 5000 1 = some fifoMid ∧
    createPayoutPartial fifoStore 7 5000 3 = some fifoRequested ∧
    fifoMid.payouts.map (fun p => (p.id, p.status, p.amount)) =
      [(1, .PENDING, 5000)] ∧
    fifoMid.links = [] ∧
    fifoMid ≠ fifoStore ∧
    fifoMid ≠ fifoRequested := by
  decide

/-- Claim C5, counterexample: the spec scenario request of 45 units is
refused by the minimum-threshold check before linking anything; and for
an agent whose older commission is 50 units and newer commission is 30
units, a 50-unit request links the newer 30-unit commission first and
then the 50-unit one (order by amount ascending), while the claimed
oldest-first walk would link only the 50-unit commission. -/
theorem allocation_not_fifo :
    createPayout fifoStore 7 4500 = .error .BelowMinimumThreshold ∧
    (storeResult (createPayout c5Store 7 5000)).map (fun s => s.links) =
      some [ { payoutId := 1, commissionId := 2 },
             { payoutId := 1, commissionId := 1 } ] ∧
    fifoLinksClaim c5Store 7 1 5000 = [ { payoutId := 1, commissionId := 1 } ] ∧
    (storeResult (createPayout c5Store 7 5000)).map (fun s => s.links) ≠
      some (fifoLinksClaim c5Store 7 1 5000) := by
  decide

/-- Claim C6, counterexample: resolving an already PAID payout to
APPROVED succeeds (no InvalidStatus error) and rewrites the payout,
setting status APPROVED and stamping approvedAt. -/
theorem paid_to_approved_allowed :
    updatePayoutStatusStr c6Store 1 "APPROVED" none ≠ .error .InvalidStatus ∧
    (payoutResult (updatePayoutStatusStr c6Store 1 "APPROVED" none)).map
      (fun p => (p.status, p.approvedAt)) = some (.APPROVED, some 10) ∧
    (findPayout c6Store 1).map (fun p => p.status) = some .PAID := by
  decide

/-- Claim C8, counterexample: a requested amount of 0, although below
the 50-unit minimum, is refused with the distinct invalid-amount error
of createPayout lines 869-872, not with the threshold error. -/
theorem zero_amount_error_mismatch :
    createPayout fifoStore 7 0 = .error .InvalidAmount ∧
    (0 : Int) < minimumPayoutThreshold ∧
    PayoutError.InvalidAmount ≠ PayoutError.BelowMinimumThreshold := by
  decide

/-- Claim C9, counterexample, refuting both halves of the claim. First
half: on the single-commission state whose 100-unit commission is PAID
and linked to an APPROVED 50-unit payout, the balance reads 50 units, a
second 50-unit request succeeds (the balance check passes with equality)
but the candidate query is empty, no link row is written, and the
balance stays at 50 instead of dropping to 0. Second half: rejecting
the approved 50-unit payout of the FIFO scenario raises the balance
from 0 to 9000 cents, an increase of 9000, not of the released payout
amount of 5000 — the balance had subtracted the payout amount once per
each of its two link rows and had been clamped at zero. -/
theorem balance_delta_claim_false :
    computeAvailableBalance oneCommConsumed 7 = 5000 ∧
    (payoutResult (createPayout oneCommConsumed 7 5000)).map
      (fun p => (p.amount, p.status)) = some (5000, .PENDING) ∧
    oneCommSecondResult.2.links = oneCommConsumed.links ∧
    computeAvailableBalance oneCommSecondResult.2 7 = 5000 ∧
    computeAvailableBalance oneCommSecondResult.2 7 ≠
      computeAvailableBalance oneCommConsumed 7 - 5000 ∧
    (findPayout fifoApproved 1).map (fun p => (p.amount, p.status)) =
      some (5000, .APPROVED) ∧
    fifoRejected = applyOp fifoApproved (.resolve 1 .REJECTED none) ∧
    computeAvailableBalance fifoApproved 7 = 0 ∧
    computeAvailableBalance fifoRejected 7 = 9000 ∧
    computeAvailableBalance fifoRejected 7 - computeAvailableBalance fifoApproved 7 ≠
      5000 := by
  decide

/-- Claim C3, amended: the balance computed inline by createPayout equals
max(0, totalEarned minus usedPerLinkRow minus min(pendingAllocatedValue,
pendingRequestedTotal)), where usedPerLinkRow adds the Payout.amount once
per APPROVED/PAID link row rather than once per payout, and the result is
never negative. -/
theorem availableBalance_formula_per_link (s : Store) (u : Nat) :
    computeAvailableBalance s u =
      max 0 (totalCommissionValue s u -
        (usedInProcessedPayouts s u +
          min (valueOfCommissionsInPendingPayouts s u) (totalPendingAmount s u))) ∧
    0 ≤ computeAvailableBalance s u :=
  ⟨rfl, le_max_left 0 _⟩

/-- Sums of a mapped filter grow when the filter is relaxed, provided the
mapped values are nonnegative. -/
theorem amount_sum_filter_mono (l : List Commission) (p q : Commission → Bool)
    (hpq : ∀ c, p c = true → q c = true) (hnn : ∀ c ∈ l, 0 ≤ c.amount) :
    ((l.filter p).map (fun c => c.amount)).sum ≤
      ((l.filter q).map (fun c => c.amount)).sum := by
  induction l with
  | nil => simp
  | cons c cs ih =>
    have ih2 := ih (fun d hd => hnn d (List.mem_cons_of_mem _ hd))
    by_cases hp : p c = true
    · rw [List.filter_cons_of_pos hp, List.filter_cons_of_pos (hpq c hp)]
      simpa using ih2
    · rw [List.filter_cons_of_neg hp]
      by_cases hq : q c = true
      · rw [List.filter_cons_of_pos hq]
        simp only [List.map_cons, List.sum_cons]
        have hc := hnn c (List.mem_cons_self _ _)
        linarith
      · rw [List.filter_cons_of_neg hq]
        exact ih2

/-- Claim C1, amended: in every state whose commission amounts are
nonnegative (as in every state reachable from earned commissions), the
sum of the amounts of the agent commissions linked to at least one
non-REJECTED payout, each commission counted once, never exceeds the
agent total earned commission amount. Counting once per link row instead
fails, as the counterexample shows. -/
theorem conservation_distinct_commissions (s : Store) (u : Nat)
    (h : ∀ c ∈ s.commissions, 0 ≤ c.amount) :
    linkedValueDistinct s u ≤ totalEarnedAllStatuses s u := by
  unfold linkedValueDistinct totalEarnedAllStatuses
  refine amount_sum_filter_mono _ _ _ ?_ h
  intro c hc
  exact ((Bool.and_eq_true _ _).mp hc).1

/-- Claim C1, witness: the amended conservation bound evaluated on the
reachable double-link state. -/
theorem conservation_distinct_commissions_witness :
    linkedValueDistinct twoCommEnd 7 ≤ totalEarnedAllStatuses twoCommEnd 7 :=
  conservation_distinct_commissions twoCommEnd 7 (by decide)

/-- Membership in an insertByAmount result comes from the inserted
element or the base list. -/
theorem mem_insertByAmount {x c : Commission} {l : List Commission}
    (h : x ∈ insertByAmount c l) : x = c ∨ x ∈ l := by
  induction l with
  | nil =>
    unfold insertByAmount at h
    exact Or.inl (List.mem_singleton.mp h)
  | cons d ds ih =>
    unfold insertByAmount at h
    split at h
    · rcases List.mem_cons.mp h with h1 | h2
      · exact Or.inl h1
      · exact Or.inr h2
    · rcases List.mem_cons.mp h with h1 | h2
      · exact Or.inr (List.mem_cons.mpr (Or.inl h1))
      · rcases ih h2 with h3 | h4
        · exact Or.inl h3
        · exact Or.inr (List.mem_cons.mpr (Or.inr h4))

/-- Membership in a sortByAmountAsc result comes from the base list. -/
theorem mem_sortByAmountAsc {x : Commission} {l : List Commission}
    (h : x ∈ sortByAmountAsc l) : x ∈ l := by
  induction l with
  | nil => simp [sortByAmountAsc] at h
  | cons c cs ih =>
    unfold sortByAmountAsc at h
    rcases mem_insertByAmount h with h1 | h2
    · exact h1 ▸ List.mem_cons_self _ _
    · exact List.mem_cons_of_mem _ (ih h2)

/-- Every link produced by the greedy loop names one of the candidate
commissions and carries the payout id of the loop. -/
theorem greedyLinks_mem {pid : Nat} {cs : List Commission} {r : Int}
    {pc : PayoutCommission} (h : pc ∈ greedyLinks pid cs r) :
    pc.payoutId = pid ∧ ∃ c ∈ cs, pc.commissionId = c.id := by
  induction cs generalizing r with
  | nil => simp [greedyLinks] at h
  | cons c rest ih =>
    unfold greedyLinks at h
    split at h
    · simp at h
    · rcases List.mem_cons.mp h with h1 | h2
      · subst h1
        exact ⟨rfl, c, List.mem_cons_self _ _, rfl⟩
      · obtain ⟨hp, d, hd, hid⟩ := ih h2
        exact ⟨hp, d, List.mem_cons_of_mem _ hd, hid⟩

/-- A find? hit in a list survives appending rows behind it. -/
theorem find?_append_of_some {α : Type} (p : α → Bool) (l₁ l₂ : List α) (x : α)
    (h : l₁.find? p = some x) : (l₁ ++ l₂).find? p = some x := by
  rw [List.find?_append, h]
  rfl

/-- A commission linked to a processed payout stays so linked when a new
payout row is appended: the link rows are unchanged and each one still
resolves to the same payout. -/
theorem linkedToProcessed_append_payout (s : Store) (q : Payout) (n m : Nat)
    (cid : Nat) (h : commissionLinkedToProcessed s cid = true) :
    commissionLinkedToProcessed
      { s with payouts := s.payouts ++ [q], nextPayoutId := n, now := m } cid = true := by
  unfold commissionLinkedToProcessed at h ⊢
  rw [List.any_eq_true] at h ⊢
  obtain ⟨pc, hmem, hpc⟩ := h
  refine ⟨pc, hmem, ?_⟩
  rw [Bool.and_eq_true] at hpc ⊢
  refine ⟨hpc.1, ?_⟩
  have h2 := hpc.2
  unfold findPayout at h2 ⊢
  cases hfp : s.payouts.find? (fun p => p.id == pc.payoutId) with
  | none => rw [hfp] at h2; simp at h2
  | some p =>
    rw [hfp] at h2
    rw [find?_append_of_some _ _ _ _ hfp]
    exact h2

/-- The links of a successful createPayout are the old rows followed by
the rows of the greedy loop run over the amount-ordered candidates that
the source reads after inserting the payout row. -/
theorem createPayout_ok_links (s : Store) (u : Nat) (a : Int)
    (pr : Payout × Store) (hok : createPayout s u a = .ok pr) :
    pr.2.links = s.links ++
      greedyLinks s.nextPayoutId
        (sortByAmountAsc (availableCommissionsFor (withNewPayout s u a) u)) a := by
  unfold createPayout at hok
  split at hok
  · exact absurd hok (by simp)
  · split at hok
    · exact absurd hok (by simp)
    · split at hok
      · exact absurd hok (by simp)
      · have hpr := Except.ok.inj hok
        rw [← hpr]
        rfl

/-- Claim C2, amended: a commission that is already linked to an APPROVED
or PAID payout is excluded from the candidate query, so a later
successful createPayout call adds no new link row for it, whoever the
requesting agent is. (The claim equivalence with a combined-withdrawal
bound fails: two PENDING payouts may link the same commission, as the
counterexample shows.) -/
theorem no_relink_after_processed (s : Store) (u cid : Nat) (a : Int)
    (pr : Payout × Store)
    (hlinked : commissionLinkedToProcessed s cid = true)
    (hok : createPayout s u a = .ok pr) :
    pr.2.links.filter (fun pc => pc.commissionId == cid) =
      s.links.filter (fun pc => pc.commissionId == cid) := by
  rw [createPayout_ok_links s u a pr hok, List.filter_append]
  have hnil : (greedyLinks s.nextPayoutId
      (sortByAmountAsc (availableCommissionsFor (withNewPayout s u a) u)) a).filter
      (fun pc => pc.commissionId == cid) = [] := by
    rw [List.filter_eq_nil_iff]
    intro pc hpc hbe
    obtain ⟨hpid, c, hc, hid⟩ := greedyLinks_mem hpc
    have hc2 := mem_sortByAmountAsc hc
    have hprop := List.of_mem_filter hc2
    rw [Bool.and_eq_true, Bool.and_eq_true] at hprop
    have hfree := hprop.2
    have hcid : cid = c.id := by
      have hpc2 : pc.commissionId = cid := eq_of_beq hbe
      rw [← hpc2, hid]
    have hmono : commissionLinkedToProcessed (withNewPayout s u a) cid = true :=
      linkedToProcessed_append_payout s (newPayoutRow s u a)
        (s.nextPayoutId + 1) (s.now + 1) cid hlinked
    rw [hcid] at hmono
    rw [hmono] at hfree
    simp at hfree
  rw [hnil, List.append_nil]

/-- Claim C2, witness: the exclusion evaluated on a state whose first
commission is consumed by an APPROVED payout. -/
theorem no_relink_after_processed_witness :
    consumedRequestResult.2.links.filter (fun pc => pc.commissionId == 1) =
      consumedStore.links.filter (fun pc => pc.commissionId == 1) :=
  no_relink_after_processed consumedStore 7 1 5000 consumedRequestResult
    (by decide) (by decide)

/-- Appending a payout row that is neither APPROVED nor PAID leaves the
processed-link test of every commission unchanged. -/
theorem linkedToProcessed_append_pending (s : Store) (q : Payout) (n m : Nat)
    (cid : Nat) (hq : q.status.isProcessed = false) :
    commissionLinkedToProcessed
      { s with payouts := s.payouts ++ [q], nextPayoutId := n, now := m } cid =
      commissionLinkedToProcessed s cid := by
  unfold commissionLinkedToProcessed
  congr 1
  funext pc
  congr 1
  unfold findPayout
  dsimp only
  rw [List.find?_append]
  cases hfp : s.payouts.find? (fun p => p.id == pc.payoutId) with
  | some p => rfl
  | none =>
    cases hb : (q.id == pc.payoutId) with
    | true => simp [List.find?, hb, hq]
    | false => simp [List.find?, hb]

/-- The candidate query run by createPayout right after its own payout
insert reads the same commissions as before the insert: the new payout is
PENDING and link rows are untouched. -/
theorem availableCommissionsFor_withNewPayout (s : Store) (u : Nat) (a : Int) :
    availableCommissionsFor (withNewPayout s u a) u = availableCommissionsFor s u := by
  unfold availableCommissionsFor
  apply List.filter_congr
  intro c hc
  congr 1
  have hlp : commissionLinkedToProcessed (withNewPayout s u a) c.id =
      commissionLinkedToProcessed s c.id :=
    linkedToProcessed_append_pending s (newPayoutRow s u a)
      (s.nextPayoutId + 1) (s.now + 1) c.id rfl
  rw [hlp]

/-- The greedy loop links an initial segment of the ordered candidate
list. -/
theorem greedyLinks_eq_take (pid : Nat) (cs : List Commission) (r : Int) :
    ∃ k, greedyLinks pid cs r =
      (cs.take k).map (fun c => { payoutId := pid, commissionId := c.id }) := by
  induction cs generalizing r with
  | nil => exact ⟨0, rfl⟩
  | cons c rest ih =>
    by_cases hr : r ≤ 0
    · refine ⟨0, ?_⟩
      unfold greedyLinks
      rw [if_pos hr]
      rfl
    · obtain ⟨k, hk⟩ := ih (r - min c.amount r)
      refine ⟨k + 1, ?_⟩
      unfold greedyLinks
      rw [if_neg hr, hk]
      rfl

/-- Inserting into an amount-sorted list keeps it amount-sorted. -/
theorem insertByAmount_pairwise (c : Commission) (l : List Commission)
    (h : l.Pairwise (fun a b => a.amount ≤ b.amount)) :
    (insertByAmount c l).Pairwise (fun a b => a.amount ≤ b.amount) := by
  induction l with
  | nil =>
    unfold insertByAmount
    exact List.pairwise_singleton _ _
  | cons d ds ih =>
    unfold insertByAmount
    rw [List.pairwise_cons] at h
    split
    · rename_i hle
      rw [List.pairwise_cons]
      refine ⟨?_, List.pairwise_cons.mpr h⟩
      intro x hx
      rcases List.mem_cons.mp hx with h1 | h2
      · rw [h1]; exact hle
      · exact le_trans hle (h.1 x h2)
    · rename_i hgt
      rw [List.pairwise_cons]
      refine ⟨?_, ih h.2⟩
      intro x hx
      rcases mem_insertByAmount hx with h1 | h2
      · rw [h1]; exact le_of_not_le hgt
      · exact h.1 x h2

/-- The candidate order used by createPayout is nondecreasing in
amount. -/
theorem sortByAmountAsc_pairwise (l : List Commission) :
    (sortByAmountAsc l).Pairwise (fun a b => a.amount ≤ b.amount) := by
  induction l with
  | nil => exact List.Pairwise.nil
  | cons c cs ih => exact insertByAmount_pairwise c _ ih

/-- Claim C5, amended: createPayout links an initial segment of the
candidate commissions ordered ascending by amount (smallest first), not
by creation time, each link consuming min(commission.amount, remaining)
until the remaining amount is nonpositive or candidates run out; on the
spec scenario of APPROVED commissions 20, 30, 40, the smallest accepted
request of 50 units links exactly the 20 and the 30 and leaves the 40
unlinked and still available (while the spec request of 45 units is
refused by the minimum threshold, see the counterexample). -/
theorem allocation_greedy_by_amount :
    (∀ s u a pr, createPayout s u a = .ok pr →
      ∃ k, pr.2.links = s.links ++
        ((sortByAmountAsc (availableCommissionsFor s u)).take k).map
          (fun c => { payoutId := s.nextPayoutId, commissionId := c.id })) ∧
    (∀ l, (sortByAmountAsc l).Pairwise (fun c d => c.amount ≤ d.amount)) ∧
    fifoRequested.links =
      [ { payoutId := 1, commissionId := 1 }, { payoutId := 1, commissionId := 2 } ] ∧
    fifoRequested.links.filter (fun pc => pc.commissionId == 3) = [] ∧
    (availableCommissionsFor fifoRequested 7).any (fun c => c.id == 3) = true := by
  refine ⟨?_, sortByAmountAsc_pairwise, by decide, by decide, by decide⟩
  intro s u a pr hok
  have hl := createPayout_ok_links s u a pr hok
  rw [availableCommissionsFor_withNewPayout] at hl
  obtain ⟨k, hk⟩ := greedyLinks_eq_take s.nextPayoutId
    (sortByAmountAsc (availableCommissionsFor s u)) a
  refine ⟨k, ?_⟩
  rw [hl, hk]

/-- Claim C5, witness: the initial-segment shape evaluated on the
two-commission store whose amount order differs from its creation
order. -/
theorem allocation_greedy_by_amount_witness :
    ∃ k, c5RequestResult.2.links = c5Store.links ++
      ((sortByAmountAsc (availableCommissionsFor c5Store 7)).take k).map
        (fun c => { payoutId := c5Store.nextPayoutId, commissionId := c.id }) :=
  allocation_greedy_by_amount.1 c5Store 7 5000 c5RequestResult (by decide)

/-- Claim C6, amended: updatePayoutStatus validates only that the status
string names one of the four enum values, failing with InvalidStatus
otherwise and with NotFound for a missing payout; it enforces no
transition guard: any of the four statuses is applied whatever the
current status, a transition into PAID stamps paidAt and one into
APPROVED stamps approvedAt. -/
theorem updatePayoutStatus_no_transition_guard (s : Store) (pid : Nat)
    (str : String) (tid : Option String) :
    (payoutStatusOfString str = none →
      updatePayoutStatusStr s pid str tid = .error .InvalidStatus) ∧
    (∀ st, payoutStatusOfString str = some st → findPayout s pid = none →
      updatePayoutStatusStr s pid str tid = .error .NotFound) ∧
    (∀ st ex, payoutStatusOfString str = some st → findPayout s pid = some ex →
      payoutResult (updatePayoutStatusStr s pid str tid) =
        some (applyStatusUpdate ex st tid s.now) ∧
      (st = .PAID → (applyStatusUpdate ex st tid s.now).paidAt = some s.now) ∧
      (st = .APPROVED →
        (applyStatusUpdate ex st tid s.now).approvedAt = some s.now)) := by
  refine ⟨?_, ?_, ?_⟩
  · intro h
    unfold updatePayoutStatusStr
    rw [h]
  · intro st h1 h2
    unfold updatePayoutStatusStr
    rw [h1]
    unfold updatePayoutStatus
    rw [h2]
  · intro st ex h1 h2
    refine ⟨?_, ?_, ?_⟩
    · unfold updatePayoutStatusStr
      rw [h1]
      unfold updatePayoutStatus
      rw [h2]
      rfl
    · intro hst
      subst hst
      rfl
    · intro hst
      subst hst
      rfl

/-- Claim C6, witness: the guard-free update evaluated on the PAID payout
resolved a second time, now to PAID again, stamping a fresh paidAt. -/
theorem updatePayoutStatus_no_transition_guard_witness :
    payoutResult (updatePayoutStatusStr c6Store 1 "PAID" none) =
      some (applyStatusUpdate c6Payout .PAID none 10) ∧
    (PayoutStatus.PAID = .PAID →
      (applyStatusUpdate c6Payout .PAID none 10).paidAt = some 10) ∧
    (PayoutStatus.PAID = .APPROVED →
      (applyStatusUpdate c6Payout .PAID none 10).approvedAt = some 10) :=
  (updatePayoutStatus_no_transition_guard c6Store 1 "PAID" none).2.2 .PAID c6Payout
    (by decide) (by decide)

/-- Claim C7: commission side effects of a successful payout resolution:
a transition to APPROVED or PAID marks every commission linked to the
payout PAID and leaves the link rows alone; REJECTED from APPROVED or
PAID reverts every linked commission to APPROVED and deletes the payout
link rows; REJECTED from PENDING deletes the link rows and leaves every
commission unchanged. -/
theorem resolvePayout_commission_effects (s : Store) (pid : Nat)
    (st : PayoutStatus) (tid : Option String) (ex : Payout)
    (pr : Payout × Store) (hfind : findPayout s pid = some ex)
    (hok : updatePayoutStatus s pid st tid = .ok pr) :
    ((st = .APPROVED ∨ st = .PAID) →
      pr.2.commissions = s.commissions.map (fun c =>
        if ((s.links.filter (fun pc => pc.payoutId == pid)).map
            (fun pc => pc.commissionId)).contains c.id then
          { c with status := CommissionStatus.PAID }
        else c) ∧
      pr.2.links = s.links) ∧
    (st = .REJECTED → ex.status = .APPROVED ∨ ex.status = .PAID →
      pr.2.commissions = s.commissions.map (fun c =>
        if ((s.links.filter (fun pc => pc.payoutId == pid)).map
            (fun pc => pc.commissionId)).contains c.id then
          { c with status := CommissionStatus.APPROVED }
        else c) ∧
      pr.2.links = s.links.filter (fun pc => pc.payoutId != pid)) ∧
    (st = .REJECTED → ex.status = .PENDING →
      pr.2.commissions = s.commissions ∧
      pr.2.links = s.links.filter (fun pc => pc.payoutId != pid)) := by
  unfold updatePayoutStatus at hok
  rw [hfind] at hok
  have hpr := Except.ok.inj hok
  subst hpr
  refine ⟨?_, ?_, ?_⟩
  · intro h
    rcases h with h | h <;> subst h <;> exact ⟨rfl, rfl⟩
  · intro h1 h2
    subst h1
    rcases h2 with h | h <;> rw [h] <;> exact ⟨rfl, rfl⟩
  · intro h1 h2
    subst h1
    rw [h2]
    exact ⟨rfl, rfl⟩

/-- Claim C7, witness: the REJECTED-from-APPROVED branch evaluated on the
approved payout of c3Store. -/
theorem resolvePayout_commission_effects_witness :
    (PayoutStatus.REJECTED = .REJECTED →
      c3Payout.status = .APPROVED ∨ c3Payout.status = .PAID →
      c3RejectResult.2.commissions = c3Store.commissions.map (fun c =>
        if ((c3Store.links.filter (fun pc => pc.payoutId == 1)).map
            (fun pc => pc.commissionId)).contains c.id then
          { c with status := CommissionStatus.APPROVED }
        else c) ∧
      c3RejectResult.2.links =
        c3Store.links.filter (fun pc => pc.payoutId != 1)) ∧
    (PayoutStatus.REJECTED = .REJECTED → c3Payout.status = .PENDING →
      c3RejectResult.2.commissions = c3Store.commissions ∧
      c3RejectResult.2.links =
        c3Store.links.filter (fun pc => pc.payoutId != 1)) :=
  ⟨(resolvePayout_commission_effects c3Store 1 .REJECTED none c3Payout
      c3RejectResult (by decide) (by decide)).2.1,
   (resolvePayout_commission_effects c3Store 1 .REJECTED none c3Payout
      c3RejectResult (by decide) (by decide)).2.2⟩

/-- Claim C8, amended: createPayout refuses a nonpositive amount with the
distinct invalid-amount error, a positive amount under the 50-unit
minimum with BelowMinimumThreshold, and an amount over the computed
available balance with InsufficientBalance; otherwise it succeeds and
the created payout is PENDING with exactly the requested amount; every
refusal happens before any write. -/
theorem requestPayout_precondition_errors (s : Store) (u : Nat) (a : Int) :
    (a ≤ 0 → createPayout s u a = .error .InvalidAmount) ∧
    (0 < a → a < minimumPayoutThreshold →
      createPayout s u a = .error .BelowMinimumThreshold) ∧
    (minimumPayoutThreshold ≤ a → computeAvailableBalance s u < a →
      createPayout s u a = .error .InsufficientBalance) ∧
    (minimumPayoutThreshold ≤ a → a ≤ computeAvailableBalance s u →
      payoutResult (createPayout s u a) = some (newPayoutRow s u a)) := by
  have hth : (0 : Int) < minimumPayoutThreshold := by decide
  refine ⟨?_, ?_, ?_, ?_⟩
  · intro h
    unfold createPayout
    rw [if_pos h]
  · intro h0 h1
    unfold createPayout
    rw [if_neg (not_le.mpr h0), if_pos h1]
  · intro h1 h2
    unfold createPayout
    rw [if_neg (not_le.mpr (lt_of_lt_of_le hth h1)), if_neg (not_lt.mpr h1),
      if_pos h2]
  · intro h1 h2
    unfold createPayout
    rw [if_neg (not_le.mpr (lt_of_lt_of_le hth h1)), if_neg (not_lt.mpr h1),
      if_neg (not_lt.mpr h2)]
    rfl

/-- Claim C8, witness: the spec threshold pair evaluated on the FIFO
scenario state — 49.99 units is refused, 50 units is accepted as a
PENDING payout of exactly that amount. -/
theorem requestPayout_precondition_errors_witness :
    createPayout fifoStore 7 4999 = .error .BelowMinimumThreshold ∧
    payoutResult (createPayout fifoStore 7 5000) =
      some (newPayoutRow fifoStore 7 5000) :=
  ⟨(requestPayout_precondition_errors fifoStore 7 4999).2.1 (by decide) (by decide),
   (requestPayout_precondition_errors fifoStore 7 5000).2.2.2 (by decide) (by decide)⟩

/-- Claim C10: a successful payout resolution rewrites only the target
row and only its status, transactionId, approvedAt and paidAt columns:
id, userId, amount and createdAt are copied, transactionId is kept when
the caller supplies none, and the payouts table is the old table with
only the target row replaced. -/
theorem resolvePayout_frame (s : Store) (pid : Nat) (st : PayoutStatus)
    (tid : Option String) (ex : Payout) (pr : Payout × Store)
    (hfind : findPayout s pid = some ex)
    (hok : updatePayoutStatus s pid st tid = .ok pr) :
    pr.1.id = ex.id ∧ pr.1.userId = ex.userId ∧ pr.1.amount = ex.amount ∧
    pr.1.createdAt = ex.createdAt ∧
    (tid = none → pr.1.transactionId = ex.transactionId) ∧
    pr.2.payouts = s.payouts.map (fun p => if p.id == pid then pr.1 else p) := by
  unfold updatePayoutStatus at hok
  rw [hfind] at hok
  have hpr := Except.ok.inj hok
  subst hpr
  refine ⟨rfl, rfl, rfl, rfl, ?_, ?_⟩
  · intro h
    subst h
    rfl
  · cases st with
    | PENDING => rfl
    | APPROVED => rfl
    | PAID => rfl
    | REJECTED =>
      by_cases hex : (ex.status == PayoutStatus.APPROVED ||
          ex.status == PayoutStatus.PAID) = true
      · rw [if_pos hex]
        rfl
      · rw [if_neg hex]
        rfl

/-- Claim C10, witness: the frame evaluated on the PAID payout of c6Store
resolved to APPROVED with no transactionId supplied. -/
theorem resolvePayout_frame_witness :
    c6ApproveResult.1.id = c6Payout.id ∧
    c6ApproveResult.1.userId = c6Payout.userId ∧
    c6ApproveResult.1.amount = c6Payout.amount ∧
    c6ApproveResult.1.createdAt = c6Payout.createdAt ∧
    ((none : Option String) = none →
      c6ApproveResult.1.transactionId = c6Payout.transactionId) ∧
    c6ApproveResult.2.payouts =
      c6Store.payouts.map (fun p => if p.id == 1 then c6ApproveResult.1 else p) :=
  resolvePayout_frame c6Store 1 .APPROVED none c6Payout c6ApproveResult
    (by decide) (by decide)

/-- The full result of a successful createPayout: the new PENDING payout
row and the store with that row and the greedy link rows appended. -/
theorem createPayout_ok_shape (s : Store) (u : Nat) (a : Int)
    (pr : Payout × Store) (hok : createPayout s u a = .ok pr) :
    pr = (newPayoutRow s u a, afterRequest s u a) := by
  unfold createPayout at hok
  split at hok
  · exact absurd hok (by simp)
  · split at hok
    · exact absurd hok (by simp)
    · split at hok
      · exact absurd hok (by simp)
      · have hpr := Except.ok.inj hok
        rw [← hpr]
        unfold afterRequest requestLinks
        rw [← availableCommissionsFor_withNewPayout s u a]
        rfl

/-- The guards a successful createPayout has passed. -/
theorem createPayout_ok_guards (s : Store) (u : Nat) (a : Int)
    (pr : Payout × Store) (hok : createPayout s u a = .ok pr) :
    0 < a ∧ minimumPayoutThreshold ≤ a ∧ a ≤ computeAvailableBalance s u := by
  unfold createPayout at hok
  split at hok
  · exact absurd hok (by simp)
  · rename_i h1
    split at hok
    · exact absurd hok (by simp)
    · rename_i h2
      split at hok
      · exact absurd hok (by simp)
      · rename_i h3
        exact ⟨lt_of_not_le h1, not_lt.mp h2, not_lt.mp h3⟩

/-- One insertion step permutes to consing. -/
theorem insertByAmount_perm (c : Commission) (l : List Commission) :
    (insertByAmount c l).Perm (c :: l) := by
  induction l with
  | nil => exact List.Perm.refl _
  | cons d ds ih =>
    unfold insertByAmount
    split
    · exact List.Perm.refl _
    · exact List.Perm.trans (List.Perm.cons d ih) (List.Perm.swap c d ds)

/-- The amount-ordered candidate list is a permutation of the candidate
list. -/
theorem sortByAmountAsc_perm (l : List Commission) :
    (sortByAmountAsc l).Perm l := by
  induction l with
  | nil => exact List.Perm.refl _
  | cons c cs ih =>
    exact List.Perm.trans (insertByAmount_perm c (sortByAmountAsc cs))
      (List.Perm.cons c ih)

/-- Sorting does not change the total candidate amount. -/
theorem sortByAmountAsc_amount_sum (l : List Commission) :
    ((sortByAmountAsc l).map (fun c => c.amount)).sum =
      (l.map (fun c => c.amount)).sum :=
  ((sortByAmountAsc_perm l).map (fun c => c.amount)).sum_eq

/-- When the candidates can cover the requested amount and amounts are
nonnegative, the greedy loop links an initial segment whose amounts sum
to at least the request. -/
theorem greedyLinks_cover (pid : Nat) (cs : List Commission) (r : Int)
    (hnn : ∀ c ∈ cs, 0 ≤ c.amount)
    (h : r ≤ (cs.map (fun c => c.amount)).sum) :
    ∃ k, greedyLinks pid cs r =
      (cs.take k).map (fun c => { payoutId := pid, commissionId := c.id }) ∧
      r ≤ ((cs.take k).map (fun c => c.amount)).sum := by
  induction cs generalizing r with
  | nil =>
    refine ⟨0, rfl, ?_⟩
    simpa using h
  | cons c rest ih =>
    have hrest : ∀ d ∈ rest, 0 ≤ d.amount :=
      fun d hd => hnn d (List.mem_cons_of_mem _ hd)
    by_cases hr : r ≤ 0
    · refine ⟨0, ?_, ?_⟩
      · unfold greedyLinks
        rw [if_pos hr]
        rfl
      · simpa using hr
    · by_cases hca : c.amount ≤ r
      · have hmin : min c.amount r = c.amount := min_eq_left hca
        have h2 : r - min c.amount r ≤ (rest.map (fun d => d.amount)).sum := by
          rw [hmin]
          simp only [List.map_cons, List.sum_cons] at h
          linarith
        obtain ⟨k, hk1, hk2⟩ := ih (r - min c.amount r) hrest h2
        refine ⟨k + 1, ?_, ?_⟩
        · unfold greedyLinks
          rw [if_neg hr, hk1]
          rfl
        · simp only [List.take_succ_cons, List.map_cons, List.sum_cons]
          rw [hmin] at hk2
          linarith
      · have hmin : min c.amount r = r := min_eq_right (le_of_not_le hca)
        have h2 : r - min c.amount r ≤ (rest.map (fun d => d.amount)).sum := by
          rw [hmin, sub_self]
          exact List.sum_nonneg (by
            intro x hx
            obtain ⟨d, hd, hdx⟩ := List.mem_map.mp hx
            rw [← hdx]
            exact hrest d hd)
        obtain ⟨k, hk1, hk2⟩ := ih (r - min c.amount r) hrest h2
        refine ⟨k + 1, ?_, ?_⟩
        · unfold greedyLinks
          rw [if_neg hr, hk1]
          rfl
        · simp only [List.take_succ_cons, List.map_cons, List.sum_cons]
          have h0 : 0 ≤ ((rest.take k).map (fun d => d.amount)).sum :=
            List.sum_nonneg (by
              intro x hx
              obtain ⟨d, hd, hdx⟩ := List.mem_map.mp hx
              rw [← hdx]
              exact hrest d (List.take_subset k rest hd))
          have hrc : r ≤ c.amount := le_of_not_le hca
          linarith

/-- Looking a commission up by id in a duplicate-free table finds that
commission. -/
theorem find?_id_of_pairwise (l : List Commission) (c : Commission)
    (hpw : l.Pairwise (fun a b => a.id ≠ b.id)) (hc : c ∈ l) :
    l.find? (fun d => d.id == c.id) = some c := by
  induction l with
  | nil => simp at hc
  | cons d ds ih =>
    rw [List.pairwise_cons] at hpw
    rcases List.mem_cons.mp hc with h1 | h2
    · rw [h1]
      have hbe : (d.id == d.id) = true := by simp
      rw [List.find?_cons, h1] at *
      simp
    · have hne : d.id ≠ c.id := hpw.1 c h2
      have hbe : (d.id == c.id) = false := by
        simpa using hne
      rw [List.find?_cons, hbe]
      exact ih hpw.2 h2

/-- A filterMap whose function always hits is a map. -/
theorem filterMap_eq_map_of_some {α β : Type} (f : α → Option β) (g : α → β)
    (l : List α) (h : ∀ x ∈ l, f x = some (g x)) : l.filterMap f = l.map g := by
  induction l with
  | nil => rfl
  | cons x xs ih =>
    rw [List.filterMap_cons, h x (List.mem_cons_self _ _), List.map_cons,
      ih (fun y hy => h y (List.mem_cons_of_mem _ hy))]

/-- A payout found before the request is found unchanged after it. -/
theorem findPayout_afterRequest_old (s : Store) (u : Nat) (a : Int) (pid : Nat)
    (p : Payout) (h : findPayout s pid = some p) :
    findPayout (afterRequest s u a) pid = some p := by
  unfold findPayout at h ⊢
  unfold afterRequest
  exact find?_append_of_some _ _ _ _ h

/-- When no existing payout carries the fresh id, looking the fresh id up
after the request finds the new payout row. -/
theorem findPayout_afterRequest_new (s : Store) (u : Nat) (a : Int)
    (hfresh : ∀ p ∈ s.payouts, p.id ≠ s.nextPayoutId) :
    findPayout (afterRequest s u a) s.nextPayoutId = some (newPayoutRow s u a) := by
  unfold findPayout afterRequest
  dsimp only
  rw [List.find?_append]
  have hnone : s.payouts.find? (fun p => p.id == s.nextPayoutId) = none := by
    rw [List.find?_eq_none]
    intro p hp
    simpa using hfresh p hp
  rw [hnone]
  have hhit : ([newPayoutRow s u a].find? (fun p => p.id == s.nextPayoutId)) =
      some (newPayoutRow s u a) := by
    rw [List.find?_cons]
    have : ((newPayoutRow s u a).id == s.nextPayoutId) = true := by
      simp [newPayoutRow]
    rw [this]
  rw [Option.none_or]
  exact hhit

/-- The link-with-payout rows the balance computation reads after a
successful request: the old rows unchanged, followed by the new link rows
each paired with the new PENDING payout. -/
theorem userPayoutLinks_afterRequest (s : Store) (u : Nat) (a : Int)
    (hfk : ∀ pc ∈ s.links, (findPayout s pc.payoutId).isSome = true)
    (hfresh : ∀ p ∈ s.payouts, p.id ≠ s.nextPayoutId) :
    userPayoutLinks (afterRequest s u a) u =
      userPayoutLinks s u ++
        (requestLinks s u a).map (fun pc => (pc, newPayoutRow s u a)) := by
  unfold userPayoutLinks
  show ((s.links ++ requestLinks s u a).filterMap _) = _
  rw [List.filterMap_append]
  congr 1
  · apply List.filterMap_congr
    intro pc hpc
    have hsome := hfk pc hpc
    cases hfp : findPayout s pc.payoutId with
    | none =>
      rw [hfp] at hsome
      simp at hsome
    | some p =>
      dsimp only
      rw [findPayout_afterRequest_old s u a _ p hfp]
  · apply filterMap_eq_map_of_some
    intro pc hpc
    have hpc2 := hpc
    unfold requestLinks at hpc2
    have hpid : pc.payoutId = s.nextPayoutId := (greedyLinks_mem hpc2).1
    rw [hpid, findPayout_afterRequest_new s u a hfresh]
    simp [newPayoutRow]

/-- The per-link processed usage is unchanged by a successful request:
the new payout is PENDING. -/
theorem usedInProcessed_afterRequest (s : Store) (u : Nat) (a : Int)
    (hfk : ∀ pc ∈ s.links, (findPayout s pc.payoutId).isSome = true)
    (hfresh : ∀ p ∈ s.payouts, p.id ≠ s.nextPayoutId) :
    usedInProcessedPayouts (afterRequest s u a) u = usedInProcessedPayouts s u := by
  unfold usedInProcessedPayouts
  rw [userPayoutLinks_afterRequest s u a hfk hfresh, List.filter_append]
  have hnil : (((requestLinks s u a).map (fun pc => (pc, newPayoutRow s u a))).filter
      (fun x => x.2.status.isProcessed)) = [] := by
    rw [List.filter_eq_nil_iff]
    intro x hx
    obtain ⟨pc, hpc, hpcx⟩ := List.mem_map.mp hx
    rw [← hpcx]
    simp [newPayoutRow, PayoutStatus.isProcessed]
  rw [hnil, List.append_nil]

/-- The pending requested total grows by exactly the requested amount. -/
theorem totalPending_afterRequest (s : Store) (u : Nat) (a : Int) :
    totalPendingAmount (afterRequest s u a) u = totalPendingAmount s u + a := by
  unfold totalPendingAmount afterRequest
  dsimp only
  rw [List.filter_append, List.map_append, List.sum_append]
  have hone : ([newPayoutRow s u a].filter
      (fun p => p.userId == u && p.status == PayoutStatus.PENDING)) =
      [newPayoutRow s u a] := by
    simp [newPayoutRow]
  rw [hone]
  simp [newPayoutRow]

/-- The pending allocated value grows by the looked-up amounts of the
newly linked commissions. -/
theorem pendingValue_afterRequest (s : Store) (u : Nat) (a : Int)
    (hfk : ∀ pc ∈ s.links, (findPayout s pc.payoutId).isSome = true)
    (hfresh : ∀ p ∈ s.payouts, p.id ≠ s.nextPayoutId) :
    valueOfCommissionsInPendingPayouts (afterRequest s u a) u =
      valueOfCommissionsInPendingPayouts s u +
        ((requestLinks s u a).map (fun pc =>
          match (allCommissionsOf s u).find? (fun c => c.id == pc.commissionId) with
          | some c => c.amount
          | none => 0)).sum := by
  unfold valueOfCommissionsInPendingPayouts
  have hall : allCommissionsOf (afterRequest s u a) u = allCommissionsOf s u := rfl
  rw [userPayoutLinks_afterRequest s u a hfk hfresh, List.filter_append]
  have hkeep : (((requestLinks s u a).map (fun pc => (pc, newPayoutRow s u a))).filter
      (fun x => x.2.status == PayoutStatus.PENDING)) =
      ((requestLinks s u a).map (fun pc => (pc, newPayoutRow s u a))) := by
    rw [List.filter_eq_self]
    intro x hx
    obtain ⟨pc, hpc, hpcx⟩ := List.mem_map.mp hx
    rw [← hpcx]
    simp [newPayoutRow]
  rw [hkeep, List.map_append, List.sum_append, List.map_map]
  simp only [hall]
  rfl

/-- A candidate commission is among the commissions the balance lookup
reads: APPROVED and PENDING both qualify as earned. -/
theorem mem_allCommissions_of_available {s : Store} {u : Nat} {c : Commission}
    (h : c ∈ availableCommissionsFor s u) : c ∈ allCommissionsOf s u := by
  unfold availableCommissionsFor at h
  unfold allCommissionsOf
  have hmem := List.mem_of_mem_filter h
  have hprop := List.of_mem_filter h
  rw [Bool.and_eq_true, Bool.and_eq_true] at hprop
  refine List.mem_filter.mpr ⟨hmem, ?_⟩
  rw [Bool.and_eq_true]
  refine ⟨hprop.1.1, ?_⟩
  have hlink := hprop.1.2
  cases hst : c.status <;> rw [hst] at hlink <;>
    simp [CommissionStatus.isLinkable] at hlink <;>
    rfl

/-- Claim C9, amended. General half: for every well-formed state (every
link row resolves to a payout, no stored payout carries the fresh id,
commission ids are distinct, commission amounts nonnegative), whenever
the pending payouts are fully allocated (pendingRequestedTotal at most
pendingAllocatedValue) and the candidate commissions cover the requested
amount, a successful requestPayout decreases computeAvailableBalance by
exactly the requested amount; when the candidates cannot cover it the
delta can differ (see the counterexample, where it is zero). Scenario
half: on the 20/30/40 scenario at the smallest accepted request of 50
units the balance runs 9000, 4000, 0, and back to 9000 cents — the
REJECTED resolution from APPROVED raises it by the payout amount once
per deleted link row (clamped at zero), not by the released amount — so
it returns to the pre-request value and the repeated request succeeds
linking the same two commissions. -/
theorem balance_delta_request_and_reject :
    (∀ s u a pr,
      (∀ pc ∈ s.links, (findPayout s pc.payoutId).isSome = true) →
      (∀ p ∈ s.payouts, p.id ≠ s.nextPayoutId) →
      s.commissions.Pairwise (fun c d => c.id ≠ d.id) →
      (∀ c ∈ s.commissions, 0 ≤ c.amount) →
      totalPendingAmount s u ≤ valueOfCommissionsInPendingPayouts s u →
      a ≤ ((availableCommissionsFor s u).map (fun c => c.amount)).sum →
      createPayout s u a = .ok pr →
      computeAvailableBalance pr.2 u = computeAvailableBalance s u - a) ∧
    computeAvailableBalance fifoStore 7 = 9000 ∧
    computeAvailableBalance fifoRequested 7 = 4000 ∧
    computeAvailableBalance fifoApproved 7 = 0 ∧
    computeAvailableBalance fifoRejected 7 = computeAvailableBalance fifoStore 7 ∧
    (storeResult (createPayout fifoRejected 7 5000)).map (fun st => st.links) =
      some [ { payoutId := 2, commissionId := 1 },
             { payoutId := 2, commissionId := 2 } ] := by
  refine ⟨?_, by decide, by decide, by decide, by decide, by decide⟩
  intro s u a pr hfk hfresh hids hnn hpend hcover hok
  have hformula : ∀ t : Store, computeAvailableBalance t u =
      max 0 (totalCommissionValue t u - (usedInProcessedPayouts t u +
        min (valueOfCommissionsInPendingPayouts t u) (totalPendingAmount t u))) :=
    fun t => rfl
  obtain ⟨ha0, hath, hab⟩ := createPayout_ok_guards s u a pr hok
  have hpr2 : pr.2 = afterRequest s u a := by
    rw [createPayout_ok_shape s u a pr hok]
  have hT : totalCommissionValue (afterRequest s u a) u =
      totalCommissionValue s u := rfl
  have hU := usedInProcessed_afterRequest s u a hfk hfresh
  have hPR := totalPending_afterRequest s u a
  have hPA := pendingValue_afterRequest s u a hfk hfresh
  have hnnsorted : ∀ c ∈ sortByAmountAsc (availableCommissionsFor s u),
      0 ≤ c.amount := by
    intro c hc
    exact hnn c (List.mem_of_mem_filter (mem_sortByAmountAsc hc))
  have hcover2 : a ≤
      ((sortByAmountAsc (availableCommissionsFor s u)).map (fun c => c.amount)).sum := by
    rw [sortByAmountAsc_amount_sum]
    exact hcover
  obtain ⟨k, hk1, hk2⟩ := greedyLinks_cover s.nextPayoutId
    (sortByAmountAsc (availableCommissionsFor s u)) a hnnsorted hcover2
  have hS : ((requestLinks s u a).map (fun pc =>
      match (allCommissionsOf s u).find? (fun c => c.id == pc.commissionId) with
      | some c => c.amount
      | none => 0)).sum =
      (((sortByAmountAsc (availableCommissionsFor s u)).take k).map
        (fun c => c.amount)).sum := by
    unfold requestLinks
    rw [hk1, List.map_map]
    congr 1
    apply List.map_congr_left
    intro c hc
    have hcav : c ∈ availableCommissionsFor s u :=
      mem_sortByAmountAsc (List.take_subset k _ hc)
    have hcall : c ∈ allCommissionsOf s u := mem_allCommissions_of_available hcav
    have hpw2 : (allCommissionsOf s u).Pairwise (fun x y => x.id ≠ y.id) :=
      hids.filter _
    have hfind := find?_id_of_pairwise (allCommissionsOf s u) c hpw2 hcall
    dsimp only [Function.comp]
    rw [hfind]
  have hB2 : computeAvailableBalance pr.2 u =
      max 0 (totalCommissionValue s u - (usedInProcessedPayouts s u +
        min (valueOfCommissionsInPendingPayouts s u +
            (((sortByAmountAsc (availableCommissionsFor s u)).take k).map
              (fun c => c.amount)).sum)
          (totalPendingAmount s u + a))) := by
    rw [hpr2, hformula (afterRequest s u a), hT, hU, hPR, hPA, hS]
  have hmin2 : min (valueOfCommissionsInPendingPayouts s u +
        (((sortByAmountAsc (availableCommissionsFor s u)).take k).map
          (fun c => c.amount)).sum)
      (totalPendingAmount s u + a) = totalPendingAmount s u + a :=
    min_eq_right (add_le_add hpend hk2)
  have hBdef : computeAvailableBalance s u =
      max 0 (totalCommissionValue s u -
        (usedInProcessedPayouts s u + totalPendingAmount s u)) := by
    rw [hformula s, min_eq_right hpend]
  have hBpos : 0 < computeAvailableBalance s u :=
    lt_of_lt_of_le (lt_of_lt_of_le (by decide) hath) hab
  have hinner_eq : computeAvailableBalance s u =
      totalCommissionValue s u -
        (usedInProcessedPayouts s u + totalPendingAmount s u) := by
    rcases le_or_lt 0 (totalCommissionValue s u -
        (usedInProcessedPayouts s u + totalPendingAmount s u)) with h | h
    · rw [hBdef]
      exact max_eq_right h
    · exfalso
      have hzero : computeAvailableBalance s u = 0 := by
        rw [hBdef]
        exact max_eq_left (le_of_lt h)
      rw [hzero] at hBpos
      exact lt_irrefl 0 hBpos
  have ha_le : a ≤ totalCommissionValue s u -
      (usedInProcessedPayouts s u + totalPendingAmount s u) := by
    rw [← hinner_eq]
    exact hab
  rw [hB2, hmin2, hinner_eq]
  have harith : totalCommissionValue s u -
      (usedInProcessedPayouts s u + (totalPendingAmount s u + a)) =
      totalCommissionValue s u -
        (usedInProcessedPayouts s u + totalPendingAmount s u) - a := by
    ring
  rw [harith]
  exact max_eq_right (by linarith)

/-- Claim C9, witness: the exact-delta half evaluated on the FIFO
scenario request, where all hypotheses hold concretely. -/
theorem balance_delta_request_and_reject_witness :
    computeAvailableBalance fifoRequestResult.2 7 =
      computeAvailableBalance fifoStore 7 - 5000 :=
  balance_delta_request_and_reject.1 fifoStore 7 5000 fifoRequestResult
    (by decide) (by decide) (by decide) (by decide) (by decide) (by decide)
    (by decide)

end AWorld
